import Mathlib

/-
  Verification of the star-registry private blockchain
  (src/src/blockchain.js, with draft revisions in src/unnamed/).

  Shallow embedding notes:
  - The chain lives in `this.chain` (a JS array of Block objects) and is
    modelled as `List Block`; `this.height` (initialized to -1 and, in the
    source, never updated afterwards) is the `height` field of `Blockchain`.
  - SHA256 composed with JSON.stringify is an opaque deterministic function of
    the block's fields, modelled as a parameter `H : Block -> String` applied
    to the block state at the moment `block.hash = SHA256(JSON.stringify(block))`
    runs (hash field still null, height already incremented).
  - hex-encoding of the payload (Block constructor) and hex2ascii+JSON.parse
    (`_hexToJSON`) are modelled as parameters `E` and `D` on `String`.
  - `bitcoinMessage.verify` is modelled as a parameter
    `V : String -> String -> String -> Bool` (message, address, signature).
  - A settled JS promise keeps its first settlement: later `resolve`/`reject`
    calls are no-ops, but the side effects of the code that runs after a
    `reject` without `return` still happen.  `submitStar` is therefore
    modelled as returning the first settlement as its outcome while the chain
    mutation performed by the fall-through call to `_addBlock` always happens.
-/

namespace StarLedger

/-- A ledger block, mirroring the fields set by block.js and blockchain.js:
hash, height, body (hex-encoded payload), time, previousBlockHash, and the
owner address attached by submitStar (absent for the genesis block). -/
structure Block where
  hash : Option String
  height : Int
  body : String
  time : String
  previousBlockHash : Option String
  address : Option String
deriving DecidableEq

/-- The Block constructor from block.js: hash null, height 0, body the
encoded payload, time 0, previousBlockHash null (comment at the end of
src/unnamed/part_001 records these defaults). -/
def Block.new (E : String → String) (data : String) : Block :=
  { hash := none
    height := 0
    body := E data
    time := "0"
    previousBlockHash := none
    address := none }

/-- The payload passed to the Block constructor for the genesis block,
`\x7b data: 'Genesis Block' \x7d`, kept as an opaque string. -/
def genesisData : String := "data: Genesis Block"

/-- The block as finalized by `_addBlock` in src/src/blockchain.js: the method
sets `block.height = chain.length` and `block.time = now`, copies the tail
block's hash into `previousBlockHash` when the chain is non-empty, then runs
the stray `block.height++` (so the stored height is chain.length + 1), and
finally computes `block.hash` over the block's current fields. -/
def addBlockBlock (H : Block → String) (chain : List Block) (b : Block)
    (nowStr : String) : Block :=
  let prev : Option String :=
    match chain.getLast? with
    | some last => last.hash
    | none => b.previousBlockHash
  let b3 : Block :=
    { b with
        height := (chain.length : Int) + 1
        time := nowStr
        previousBlockHash := prev }
  { b3 with hash := some (H b3) }

/-- The ledger state: the chain array plus the `this.height` counter, which
the constructor sets to -1 and which no method of the source ever updates. -/
structure Blockchain where
  chain : List Block
  height : Int
deriving DecidableEq

/-- `initializeChain` from src/src/blockchain.js: if `this.height === -1`,
construct the genesis Block and pass it through `_addBlock`, which appends it
to the chain (and leaves `this.height` untouched). -/
def initChain (H : Block → String) (E : String → String) (bc : Blockchain)
    (nowStr : String) : Blockchain :=
  if bc.height = -1 then
    { bc with chain := bc.chain ++ [addBlockBlock H bc.chain (Block.new E genesisData) nowStr] }
  else bc

/-- The Blockchain constructor: empty chain, height -1, then initializeChain. -/
def newBlockchain (H : Block → String) (E : String → String)
    (nowStr : String) : Blockchain :=
  initChain H E { chain := [], height := -1 } nowStr

/-- `getChainHeight`: resolves with `this.height`. -/
def getChainHeight (bc : Blockchain) : Int := bc.height

/-- Modelled from the spec: block.js is not under src/, so Block.validate is
taken from spec section 4.4 — it reports a message exactly when recomputing
the hash over the block's stored fields (with the hash field cleared, as it
was when the stored hash was computed) fails to reproduce the stored hash. -/
def blockValidateMsg (H : Block → String) (b : Block) : Option String :=
  if b.hash = some (H { b with hash := none }) then none
  else some "Returning the Block is not valid"

/-- The loop body of `validateChain` in src/src/blockchain.js: for each index
i from 1, it calls validate() on chain[i] (pushing an error naming
chain[i].height) and on chain[i-1] (pushing an error that interpolates the
promise object, so the height prints as undefined).  No comparison of
previousBlockHash against the predecessor's hash is ever made.  This model
accumulates the pushes synchronously — the most favorable reading, since the
source resolves the error log before the fire-and-forget callbacks run. -/
def validateChainGo (H : Block → String) : List Block → List String
  | a :: b :: rest =>
    (if (blockValidateMsg H b).isSome then
       [String.append (String.append "At height " (toString b.height)) " Block is not valid"]
     else [])
    ++ (if (blockValidateMsg H a).isSome then
          ["At height undefined Block is not valid"]
        else [])
    ++ validateChainGo H (b :: rest)
  | _ => []

/-- `validateChain` from src/src/blockchain.js. -/
def validateChain (H : Block → String) (chain : List Block) : List String :=
  validateChainGo H chain

/-- JS String.prototype.split with a single-character separator: cut the
character sequence at every occurrence of the separator, keeping empty
fields ("".split and trailing separators included). -/
def jsSplitGo (sep : Char) : List Char → List Char → List (List Char)
  | [], acc => [acc.reverse]
  | c :: rest, acc =>
    if c = sep then acc.reverse :: jsSplitGo sep rest []
    else jsSplitGo sep rest (c :: acc)

def jsSplit (sep : Char) (s : String) : List String :=
  (jsSplitGo sep s.data []).map (fun cs => String.mk cs)

/-- JS parseInt on the string (radix 10): skip leading whitespace, optional
sign, then leading decimal digits; NaN (none) when no digit is found.
Applied to `message.split(':')[1]`, which may be undefined (none) when the
message has no second field — parseInt(undefined) is NaN. -/
def digitsVal (ds : List Char) : Nat :=
  List.foldl (fun acc c => acc * 10 + (c.toNat - 48)) 0 ds

def jsParseIntCore (s : String) : Option Int :=
  let cs := s.data.dropWhile (fun c => c.isWhitespace)
  let signed : Int × List Char :=
    match cs with
    | '-' :: rest => (-1, rest)
    | '+' :: rest => (1, rest)
    | _ => (1, cs)
  let ds := signed.2.takeWhile (fun c => c.isDigit)
  if ds.isEmpty then none
  else some (signed.1 * (digitsVal ds : Int))

def jsParseInt : Option String → Option Int
  | some s => jsParseIntCore s
  | none => none

/-- The time-window test `timeElapsed > 300000` of submitStar: when the
incoming time is NaN the subtraction is NaN and the comparison is false. -/
def expiredCheck (now : Int) : Option Int → Bool
  | some t => decide (now - t > 300000)
  | none => false

/-- The rejection string of the time-window guard in src/src/blockchain.js. -/
def timeMsg : String := "time elapsed. Please generated a new message and a signature"

/-- The rejection string of the signature guard in src/src/blockchain.js. -/
def sigMsg : String := "can not verify signature"

/-- How the promise returned by submitStar settles: resolved with the added
block, rejected with a message string, or rejected with the validateChain
error log (the first settlement wins). -/
inductive SubmitResult where
  | resolved (b : Block)
  | rejected (msg : String)
  | rejectedLog (log : List String)
deriving DecidableEq

def isResolved : SubmitResult → Bool
  | SubmitResult.resolved _ => true
  | _ => false

/-- `submitStar` from src/src/blockchain.js.  Inside the validateChain
callback the code runs, in order: reject(errorLog) when the log is nonempty,
reject(timeMsg) when the elapsed-time comparison holds, reject(sigMsg) when
bitcoinMessage.verify is false, and finally _addBlock + resolve(block) —
with no `return` after any reject, so the block construction and the append
run on every path; only the first settlement is observable as the outcome. -/
def submitStar (H : Block → String) (V : String → String → String → Bool)
    (E : String → String) (bc : Blockchain)
    (address message signature star : String) (now : Int) (nowStr : String) :
    SubmitResult × Blockchain :=
  let errorLog := validateChain H bc.chain
  let incomingTime := jsParseInt ((jsSplit ':' message).get? 1)
  let block0 := { Block.new E star with address := some address }
  let added := addBlockBlock H bc.chain block0 nowStr
  let outcome :=
    if errorLog.length > 0 then SubmitResult.rejectedLog errorLog
    else if expiredCheck now incomingTime then SubmitResult.rejected timeMsg
    else if V message address signature then SubmitResult.resolved added
    else SubmitResult.rejected sigMsg
  (outcome, { bc with chain := bc.chain ++ [added] })

/-- `_construcDuplicateBlock` from src/src/blockchain.js: a fresh Block built
from the decoded body, with hash, previousBlockHash, time and height copied
over and the body decoded again (the address field is not copied). -/
def construcDuplicateBlock (E D : String → String) (b : Block) : Block :=
  let rb := Block.new E (D b.body)
  let rb2 := { rb with
                 hash := b.hash
                 previousBlockHash := b.previousBlockHash
                 time := b.time
                 height := b.height }
  { rb2 with body := D rb2.body }

/-- How the promise returned by getBlockByHeight settles: resolved with a
block or with null, or rejected by an exception thrown inside the executor
(reading `.height` of undefined when the filter found no block). -/
inductive HeightResult where
  | resolved (b : Option Block)
  | thrown
deriving DecidableEq

/-- `getBlockByHeight` from src/src/blockchain.js: filter the chain on the
height, take element 0, and read `.height` on it — a TypeError (rejecting the
promise) when no block matched; the `resolve(null)` branch requires a matched
block with negative height. -/
def getBlockByHeight (E D : String → String) (bc : Blockchain) (h : Int) :
    HeightResult :=
  match (bc.chain.filter (fun p => decide (p.height = h))).head? with
  | some b =>
    if b.height ≥ 0 then HeightResult.resolved (some (construcDuplicateBlock E D b))
    else HeightResult.resolved none
  | none => HeightResult.thrown

/-- `getStarsByWalletAddress` from src/src/blockchain.js: filter the chain on
the owner address; when matches exist, `result.forEach(r => r.body =
this._hexToJSON(r.body))` overwrites the body of the matched blocks — these
are references into `this.chain`, so the stored blocks are mutated — and the
mutated blocks are resolved; with no match the promise is rejected. -/
def getStarsByWalletAddress (D : String → String) (bc : Blockchain)
    (address : String) : Except String (List Block) × Blockchain :=
  let result := bc.chain.filter (fun b => decide (b.address = some address))
  if result.length > 0 then
    (Except.ok (result.map (fun b => { b with body := D b.body })),
     { bc with chain := bc.chain.map (fun b =>
         if b.address = some address then { b with body := D b.body } else b) })
  else
    (Except.error (String.append "No block found for address " address), bc)

/-- The hash-link invariant: every block after the first stores the hash of
its immediate predecessor in `previousBlockHash`. -/
def Linked : List Block → Prop
  | a :: b :: rest => b.previousBlockHash = a.hash ∧ Linked (b :: rest)
  | _ => True

/-- Ledger states reachable through the source's public interface: the freshly
constructed chain, followed by any sequence of submitStar calls (with any
verifier behavior, arguments and clock readings). -/
inductive Reachable (H : Block → String) (E : String → String) : Blockchain → Prop where
  | init (nowStr : String) : Reachable H E (newBlockchain H E nowStr)
  | step (bc : Blockchain) (V : String → String → String → Bool)
      (address message signature star : String) (now : Int) (nowStr : String) :
      Reachable H E bc →
      Reachable H E (submitStar H V E bc address message signature star now nowStr).2

/-- Concrete instantiations used to evaluate the model on closed inputs. -/
def Hc : Block → String := fun _ => "H"

def Ec : String → String := fun s => s

def Dc : String → String := fun s => String.append "dec" s

def Vtrue : String → String → String → Bool := fun _ _ _ => true

def Vfalse : String → String → String → Bool := fun _ _ _ => false

/-- A freshly initialized ledger under the concrete instantiation. -/
def bc0 : Blockchain := newBlockchain Hc Ec "0"

/-- One in-window, signature-accepting submitStar call against bc0. -/
def submitW : SubmitResult × Blockchain :=
  submitStar Hc Vtrue Ec bc0 "a" "a:1:x" "sig" "star" 2 "2"

def bcW : Blockchain := submitW.2

/-- The block that submitW appends. -/
def blkW : Block :=
  addBlockBlock Hc bc0.chain { Block.new Ec "star" with address := some "a" } "2"

/-- A two-block chain whose self-hashes are correct under Hc but whose second
block's previousBlockHash does not match the first block's stored hash. -/
def c3chain : List Block :=
  [{ hash := some "H", height := 1, body := "g", time := "0",
     previousBlockHash := none, address := none },
   { hash := some "H", height := 2, body := "s", time := "0",
     previousBlockHash := some "WRONG", address := some "a" }]

/-- The chain component of a fresh Blockchain holds exactly the genesis block. -/
theorem newBlockchain_chain (H : Block → String) (E : String → String) (nowStr : String) :
    (newBlockchain H E nowStr).chain
      = [addBlockBlock H [] (Block.new E genesisData) nowStr] := rfl

/-- submitStar always appends the finalized block to the stored chain,
whatever the outcome of the guards. -/
theorem submitStar_chain (H : Block → String) (V : String → String → String → Bool)
    (E : String → String) (bc : Blockchain)
    (address message signature star : String) (now : Int) (nowStr : String) :
    (submitStar H V E bc address message signature star now nowStr).2.chain
      = bc.chain
        ++ [addBlockBlock H bc.chain { Block.new E star with address := some address } nowStr] :=
  rfl

/-- When the chain is non-empty, the finalized block stores the tail block's
hash as its previousBlockHash. -/
theorem addBlockBlock_prev (H : Block → String) (chain : List Block) (b : Block)
    (nowStr : String) (x : Block) (hx : chain.getLast? = some x) :
    (addBlockBlock H chain b nowStr).previousBlockHash = x.hash := by
  simp only [addBlockBlock, hx]

/-- Appending a block whose previousBlockHash matches the tail preserves the
link invariant. -/
theorem linked_append : ∀ (l : List Block) (b : Block), Linked l →
    (∀ x, l.getLast? = some x → b.previousBlockHash = x.hash) → Linked (l ++ [b])
  | [], _, _, _ => trivial
  | [a], _, _, h2 => ⟨h2 a rfl, trivial⟩
  | _ :: a2 :: rest, b, hL, h2 =>
    ⟨hL.1, linked_append (a2 :: rest) b hL.2 (fun x hx => h2 x hx)⟩

/-- Pointwise reading of the link invariant. -/
theorem linked_get : ∀ (l : List Block), Linked l → ∀ (i : Nat) (hi : i + 1 < l.length),
    (l.get ⟨i + 1, hi⟩).previousBlockHash = (l.get ⟨i, Nat.lt_of_succ_lt hi⟩).hash
  | [], _, _, hi => absurd hi (by simp)
  | [_], _, _, hi => absurd hi (by simp)
  | _ :: _ :: _, hL, 0, _ => hL.1
  | _ :: b :: rest, hL, j + 1, hi =>
    linked_get (b :: rest) hL.2 j (Nat.lt_of_succ_lt_succ hi)

/-- Every ledger state reachable through the public interface satisfies the
link invariant. -/
theorem reachable_linked (H : Block → String) (E : String → String)
    (bc : Blockchain) (h : Reachable H E bc) : Linked bc.chain := by
  induction h with
  | init nowStr =>
    rw [newBlockchain_chain]
    trivial
  | step bc V address message signature star now nowStr _ ih =>
    rw [submitStar_chain]
    exact linked_append bc.chain _ ih
      (fun x hx => addBlockBlock_prev H bc.chain _ nowStr x hx)

/-- C1: the spec requires that a submission whose challenge message embeds a
timestamp older than the window fails with ExpiredChallenge, with the
signature left unverified, no block appended and height() unchanged.  The
code does reject with the time-elapsed message, but the missing return means
the block is constructed and appended anyway: the stored chain grows by the
new block on the same call. -/
theorem c1_expired_rejects_but_still_appends
    (H : Block → String) (V : String → String → String → Bool) (E : String → String)
    (bc : Blockchain) (address message signature star : String)
    (now : Int) (nowStr : String) (t : Int)
    (hparse : jsParseInt ((jsSplit ':' message).get? 1) = some t)
    (helapsed : now - t > 300000)
    (hlog : validateChain H bc.chain = []) :
    (submitStar H V E bc address message signature star now nowStr).1
        = SubmitResult.rejected timeMsg
    ∧ (submitStar H V E bc address message signature star now nowStr).2.chain
        = bc.chain
          ++ [addBlockBlock H bc.chain { Block.new E star with address := some address } nowStr] := by
  constructor
  · simp only [submitStar]
    rw [hlog, hparse]
    simp [expiredCheck, helapsed]
  · exact submitStar_chain H V E bc address message signature star now nowStr

/-- C1 witness: a fresh ledger, the challenge message carrying timestamp 1,
current time 400001 (elapsed 400000 exceeds the code's 300000 threshold). -/
theorem c1_witness :
    jsParseInt ((jsSplit ':' "a:1:starRegistry").get? 1) = some 1
    ∧ ((400001 : Int) - 1 > 300000)
    ∧ validateChain Hc bc0.chain = []
    ∧ (submitStar Hc Vtrue Ec bc0 "a" "a:1:starRegistry" "sig" "star" 400001 "400001").1
        = SubmitResult.rejected timeMsg
    ∧ (submitStar Hc Vtrue Ec bc0 "a" "a:1:starRegistry" "sig" "star" 400001 "400001").2.chain
        = bc0.chain
          ++ [addBlockBlock Hc bc0.chain { Block.new Ec "star" with address := some "a" } "400001"] :=
  ⟨by decide, by decide, by decide,
   (c1_expired_rejects_but_still_appends Hc Vtrue Ec bc0 "a" "a:1:starRegistry" "sig" "star"
      400001 "400001" 1 (by decide) (by decide) (by decide)).1,
   (c1_expired_rejects_but_still_appends Hc Vtrue Ec bc0 "a" "a:1:starRegistry" "sig" "star"
      400001 "400001" 1 (by decide) (by decide) (by decide)).2⟩

/-- C2: the spec requires that a submission whose signature does not verify
fails with InvalidSignature, with no block appended and height() unchanged.
The code does reject with the signature message, but the missing return means
the block is constructed and appended anyway: the stored chain grows by the
new block on the same call. -/
theorem c2_bad_signature_rejects_but_still_appends
    (H : Block → String) (V : String → String → String → Bool) (E : String → String)
    (bc : Blockchain) (address message signature star : String)
    (now : Int) (nowStr : String)
    (hexp : expiredCheck now (jsParseInt ((jsSplit ':' message).get? 1)) = false)
    (hver : V message address signature = false)
    (hlog : validateChain H bc.chain = []) :
    (submitStar H V E bc address message signature star now nowStr).1
        = SubmitResult.rejected sigMsg
    ∧ (submitStar H V E bc address message signature star now nowStr).2.chain
        = bc.chain
          ++ [addBlockBlock H bc.chain { Block.new E star with address := some address } nowStr] := by
  constructor
  · simp only [submitStar]
    rw [hlog, hexp, hver]
    simp
  · exact submitStar_chain H V E bc address message signature star now nowStr

/-- C2 witness: a fresh ledger, an in-window message, and a verifier that
returns false. -/
theorem c2_witness :
    expiredCheck 2 (jsParseInt ((jsSplit ':' "a:1:x").get? 1)) = false
    ∧ Vfalse "a:1:x" "a" "sig" = false
    ∧ validateChain Hc bc0.chain = []
    ∧ (submitStar Hc Vfalse Ec bc0 "a" "a:1:x" "sig" "star" 2 "2").1
        = SubmitResult.rejected sigMsg
    ∧ (submitStar Hc Vfalse Ec bc0 "a" "a:1:x" "sig" "star" 2 "2").2.chain
        = bc0.chain
          ++ [addBlockBlock Hc bc0.chain { Block.new Ec "star" with address := some "a" } "2"] :=
  ⟨by decide, by decide, by decide,
   (c2_bad_signature_rejects_but_still_appends Hc Vfalse Ec bc0 "a" "a:1:x" "sig" "star"
      2 "2" (by decide) (by decide) (by decide)).1,
   (c2_bad_signature_rejects_but_still_appends Hc Vfalse Ec bc0 "a" "a:1:x" "sig" "star"
      2 "2" (by decide) (by decide) (by decide)).2⟩

/-- validateChainGo produces no entry when every block passes the self-hash
check, regardless of the previousBlockHash links. -/
theorem validateChainGo_eq_nil (H : Block → String) :
    ∀ l : List Block, (∀ b ∈ l, blockValidateMsg H b = none) →
      validateChainGo H l = []
  | [] , _ => rfl
  | [_], _ => rfl
  | a :: b :: rest, h => by
    have ha := h a (List.mem_cons_self a (b :: rest))
    have hb := h b (List.mem_cons_of_mem a (List.mem_cons_self b rest))
    have ih := validateChainGo_eq_nil H (b :: rest)
      (fun x hx => h x (List.mem_cons_of_mem a hx))
    simp only [validateChainGo, ha, hb, ih, Option.isSome_none]
    simp

/-- C3: the spec requires validateLedger to check every block for a self-hash
mismatch and a broken previous-hash link and to return an empty list iff the
ledger is fully consistent.  The code never compares previousBlockHash to the
predecessor's stored hash: whenever every block passes the (spec-modelled)
self-hash check, validateChain returns the empty list — even on a chain whose
links are broken. -/
theorem c3_validateChain_never_checks_links (H : Block → String) (chain : List Block)
    (h : ∀ b ∈ chain, blockValidateMsg H b = none) :
    validateChain H chain = [] :=
  validateChainGo_eq_nil H chain h

/-- C3 witness: a two-block chain with correct self-hashes whose second block
stores a previousBlockHash different from the first block's hash; the
validation still reports no violation. -/
theorem c3_witness :
    validateChain Hc c3chain = []
    ∧ (c3chain.get ⟨1, by decide⟩).previousBlockHash ≠ (c3chain.get ⟨0, by decide⟩).hash :=
  ⟨c3_validateChain_never_checks_links Hc c3chain (by decide), by decide⟩

/-- C4: the spec requires the genesis block at height 0 and that
getBlockByHeight(0) return it immediately after initialization.  Because
_addBlock sets block.height = chain.length and then increments it again, the
genesis block is stored at height 1, and getBlockByHeight(0) finds no block
and throws (rejecting the promise) instead of resolving the genesis block. -/
theorem c4_genesis_at_height_one_and_lookup_zero_throws :
    (newBlockchain Hc Ec "0").chain.map Block.height = [1]
    ∧ getBlockByHeight Ec Dc (newBlockchain Hc Ec "0") 0 = HeightResult.thrown := by
  decide

/-- C5: the spec requires height() to be ≥ 0 once initialized and to advance
by 1 on every successful submitEntry.  No method of the source ever updates
this.height, so getChainHeight resolves -1 after initialization and still -1
after a successful submitStar. -/
theorem c5_height_never_updated :
    getChainHeight bc0 = -1
    ∧ isResolved submitW.1 = true
    ∧ getChainHeight submitW.2 = -1 := by
  decide

/-- C6: in every ledger state reachable through initialization and submitStar
calls, each non-genesis block's previousBlockHash equals the stored hash of
its immediate predecessor in the chain. -/
theorem c6_previous_hash_matches_predecessor (H : Block → String)
    (E : String → String) (bc : Blockchain) (h : Reachable H E bc)
    (i : Nat) (hi : i + 1 < bc.chain.length) :
    (bc.chain.get ⟨i + 1, hi⟩).previousBlockHash
      = (bc.chain.get ⟨i, Nat.lt_of_succ_lt hi⟩).hash :=
  linked_get bc.chain (reachable_linked H E bc h) i hi

/-- C6 witness: after one successful submitStar on a fresh ledger, the second
block's previousBlockHash equals the genesis block's hash. -/
theorem c6_witness :
    (bcW.chain.get ⟨1, by decide⟩).previousBlockHash
      = (bcW.chain.get ⟨0, by decide⟩).hash :=
  c6_previous_hash_matches_predecessor Hc Ec bcW
    (Reachable.step bc0 Vtrue "a" "a:1:x" "sig" "star" 2 "2" (Reachable.init "0"))
    0 (by decide)

/-- Mapping a function over a list changes the list whenever the function
changes some member. -/
theorem map_ne_of_mem {α : Type} (f : α → α) :
    ∀ (l : List α) (b : α), b ∈ l → f b ≠ b → l.map f ≠ l
  | [], b, hmem, _ => absurd hmem (List.not_mem_nil b)
  | a :: t, b, hmem, hfb => by
    intro h
    rw [List.map_cons] at h
    injection h with h1 h2
    rcases List.mem_cons.mp hmem with rfl | hm
    · exact hfb h1
    · exact map_ne_of_mem f t b hm hfb h2

/-- C7: the spec requires every read query to leave the stored fields of
appended blocks unchanged.  getStarsByWalletAddress runs
result.forEach(r => r.body = this._hexToJSON(r.body)) on references into
this.chain, so whenever the decode changes the body, the stored chain differs
after the query. -/
theorem c7_getStars_mutates_stored_body (D : String → String) (bc : Blockchain)
    (address : String) (b : Block) (hmem : b ∈ bc.chain)
    (haddr : b.address = some address) (hbody : D b.body ≠ b.body) :
    (getStarsByWalletAddress D bc address).2.chain ≠ bc.chain := by
  have hfil : b ∈ bc.chain.filter (fun x => decide (x.address = some address)) :=
    List.mem_filter.mpr ⟨hmem, by simp [haddr]⟩
  have hlen : (bc.chain.filter (fun x => decide (x.address = some address))).length > 0 :=
    List.length_pos.mpr (List.ne_nil_of_mem hfil)
  have h2 : (getStarsByWalletAddress D bc address).2.chain
      = bc.chain.map (fun x =>
          if x.address = some address then { x with body := D x.body } else x) := by
    simp only [getStarsByWalletAddress]
    rw [if_pos hlen]
  rw [h2]
  apply map_ne_of_mem _ bc.chain b hmem
  rw [if_pos haddr]
  intro hEq
  exact hbody (congrArg Block.body hEq)

/-- C7 witness: the chain after a successful submission holds a star block
owned by "a" whose decoded body differs from the stored body; the query
changes the stored chain. -/
theorem c7_witness :
    blkW ∈ bcW.chain
    ∧ Dc blkW.body ≠ blkW.body
    ∧ (getStarsByWalletAddress Dc bcW "a").2.chain ≠ bcW.chain :=
  ⟨by decide, by decide,
   c7_getStars_mutates_stored_body Dc bcW "a" blkW (by decide) (by decide) (by decide)⟩

/-- C8 counterexample: on a freshly initialized ledger (no block owned by
"addr"), getStarsByWalletAddress rejects with an error instead of resolving
an empty sequence. -/
theorem c8_counterexample :
    (getStarsByWalletAddress Dc bc0 "addr").1
      = Except.error (String.append "No block found for address " "addr")
    ∧ (getStarsByWalletAddress Dc bc0 "addr").1 ≠ Except.ok [] := by
  refine ⟨rfl, ?_⟩
  intro h
  exact Except.noConfusion
    ((rfl : (Except.error (String.append "No block found for address " "addr") :
        Except String (List Block)) = (getStarsByWalletAddress Dc bc0 "addr").1).trans h)

/-- C8 amended: with no matching block the query rejects with the
"No block found for address" error; when some block matches, it resolves with
exactly the matching blocks, in chain order (a sublist of the chain), each
with its payload decoded — the genesis block, whose owner address is absent,
is never among them. -/
theorem c8_getStars_rejects_empty_resolves_matches (D : String → String)
    (bc : Blockchain) (address : String) :
    ((bc.chain.filter (fun x => decide (x.address = some address)) = []) →
       (getStarsByWalletAddress D bc address).1
         = Except.error (String.append "No block found for address " address))
    ∧ (∀ b, b ∈ bc.chain → b.address = some address →
        (getStarsByWalletAddress D bc address).1
          = Except.ok ((bc.chain.filter (fun x => decide (x.address = some address))).map
              (fun x => { x with body := D x.body }))
        ∧ (bc.chain.filter (fun x => decide (x.address = some address))).Sublist bc.chain
        ∧ (∀ x ∈ bc.chain.filter (fun y => decide (y.address = some address)),
             x.address = some address)) := by
  constructor
  · intro hfil
    simp only [getStarsByWalletAddress]
    rw [hfil]
    simp
  · intro b hmem haddr
    have hfil : b ∈ bc.chain.filter (fun x => decide (x.address = some address)) :=
      List.mem_filter.mpr ⟨hmem, by simp [haddr]⟩
    have hlen : (bc.chain.filter (fun x => decide (x.address = some address))).length > 0 :=
      List.length_pos.mpr (List.ne_nil_of_mem hfil)
    refine ⟨?_, List.filter_sublist _, ?_⟩
    · simp only [getStarsByWalletAddress]
      rw [if_pos hlen]
    · intro x hx
      have hx2 := (List.mem_filter.mp hx).2
      simpa using hx2

/-- C8 witness: on the two-block chain, the query for "a" resolves with the
matching blocks, bodies decoded. -/
theorem c8_witness :
    (getStarsByWalletAddress Dc bcW "a").1
      = Except.ok ((bcW.chain.filter (fun x => decide (x.address = some "a"))).map
          (fun x => { x with body := Dc x.body })) :=
  ((c8_getStars_rejects_empty_resolves_matches Dc bcW "a").2 blkW
    (by decide) (by decide)).1

/-- C9: the spec requires getBlockByHeight to yield NotFound (an absent
result, not a thrown failure) for heights outside the chain.  When no stored
block carries the requested height, the code reads .height of undefined and
the thrown TypeError rejects the promise; the resolve(null) branch is
unreachable. -/
theorem c9_getBlockByHeight_throws_when_absent (E D : String → String)
    (bc : Blockchain) (hq : Int) (h : ∀ b ∈ bc.chain, b.height ≠ hq) :
    getBlockByHeight E D bc hq = HeightResult.thrown := by
  have hfil : bc.chain.filter (fun p => decide (p.height = hq)) = [] := by
    rw [List.filter_eq_nil_iff]
    intro a ha
    simp [h a ha]
  simp only [getBlockByHeight]
  rw [hfil]
  rfl

/-- C9 witness: getBlockByHeight(9999) on a freshly initialized ledger. -/
theorem c9_witness :
    getBlockByHeight Ec Dc bc0 9999 = HeightResult.thrown :=
  c9_getBlockByHeight_throws_when_absent Ec Dc bc0 9999 (by decide)

/-- C10: when the second colon-separated field of the message does not parse
as an integer (parseInt yields NaN), the elapsed-time comparison is false, so
the submission is never rejected as expired and proceeds past the time-window
gate: it resolves whenever the other gates pass, and the block is appended. -/
theorem c10_nan_time_never_expires (H : Block → String)
    (V : String → String → String → Bool) (E : String → String) (bc : Blockchain)
    (address message signature star : String) (now : Int) (nowStr : String)
    (hparse : jsParseInt ((jsSplit ':' message).get? 1) = none) :
    (submitStar H V E bc address message signature star now nowStr).1
        ≠ SubmitResult.rejected timeMsg
    ∧ (validateChain H bc.chain = [] → V message address signature = true →
        (submitStar H V E bc address message signature star now nowStr).1
          = SubmitResult.resolved
              (addBlockBlock H bc.chain { Block.new E star with address := some address } nowStr))
    ∧ (submitStar H V E bc address message signature star now nowStr).2.chain.length
        = bc.chain.length + 1 := by
  refine ⟨?_, ?_, ?_⟩
  · simp only [submitStar]
    rw [hparse]
    simp only [expiredCheck]
    split
    · intro hcontra; exact SubmitResult.noConfusion hcontra
    · simp only [Bool.false_eq_true, if_false]
      split
      · intro hcontra; exact SubmitResult.noConfusion hcontra
      · intro hcontra
        have hmsg : sigMsg = timeMsg := by
          injection hcontra
        exact absurd hmsg (by decide)
  · intro hlog hV
    simp only [submitStar]
    rw [hlog, hparse, hV]
    simp [expiredCheck]
  · rw [submitStar_chain]
    simp

/-- C10 witness: a message whose second field is "xyz" (parseInt NaN) is
accepted and resolved even with an arbitrarily large current time. -/
theorem c10_witness :
    jsParseInt ((jsSplit ':' "a:xyz:starRegistry").get? 1) = none
    ∧ (submitStar Hc Vtrue Ec bc0 "a" "a:xyz:starRegistry" "sig" "star"
         999999999 "999999999").1
        = SubmitResult.resolved
            (addBlockBlock Hc bc0.chain { Block.new Ec "star" with address := some "a" }
               "999999999") :=
  ⟨by decide,
   (c10_nan_time_never_expires Hc Vtrue Ec bc0 "a" "a:xyz:starRegistry" "sig" "star"
      999999999 "999999999" (by decide)).2.1 (by decide) rfl⟩

end StarLedger
